import Mathlib

/-!
Shallow embedding of the BidSenseCa hybrid search core.

The search core of the repository lives in the Supabase SQL migrations:

* `002_update_tenders_schema.sql` / `003` (advanced full-text search):
  the generated `search_vector` column over the tender text fields and the
  `search_tenders_advanced` function.
* `006_ai_search_embeddings.sql`: the `tender_embeddings` table, the hybrid
  `search_tenders_ai` ranking function, `search_tenders_ai_count`, and
  `upsert_tender_embedding`.

SQL rows are embedded as Lean structures, `NULL`-able columns as `Option`,
`DECIMAL`/`DOUBLE PRECISION` as `ℚ` (exact arithmetic), `DATE` and
timestamps as `Int`.  Postgres built-ins that are external to the repository
(`ts_rank`, the pgvector `<=>` operator, `to_tsquery` evaluation,
`ts_headline`) are passed in as an explicit environment `PgEnv`; the parts
of text search whose structure the repository's SQL fixes (which columns
feed the generated `search_vector`, the all-words semantics of
`plainto_tsquery` matching) are embedded concretely as word-list operations.
-/

/-- Split a character list into its space-separated non-empty words
(`cur` is the reversed word being built). -/
def splitWordsAux : List Char → List Char → List (List Char)
  | [], cur => if cur.isEmpty then [] else [cur.reverse]
  | c :: rest, cur =>
    if c == ' ' then
      (if cur.isEmpty then [] else [cur.reverse]) ++ splitWordsAux rest []
    else splitWordsAux rest (c :: cur)

/-- Lowercase a string (character-wise, ASCII as in the Lean core). -/
def lowerStr (s : String) : String :=
  String.mk (s.toList.map Char.toLower)

/-- Whether the first list is an initial segment of the second. -/
def startsWithSeg [BEq α] : List α → List α → Bool
  | [], _ => true
  | _ :: _, [] => false
  | a :: as, b :: bs => a == b && startsWithSeg as bs

/-- Whether `needle` occurs as a contiguous segment of the second list. -/
def hasSeg [BEq α] (needle : List α) : List α → Bool
  | [] => needle.isEmpty
  | b :: bs => startsWithSeg needle (b :: bs) || hasSeg needle bs

/-- SQL `LIKE` pattern matching over characters, fuel-indexed so that it
evaluates in the kernel: `%` matches any (possibly empty) character
sequence, `_` matches exactly one character, a backslash escapes the
next pattern character (making `\%`, `\_`, `\\` literal), and a lone
trailing backslash matches nothing (Postgres raises an error there).
Every recursive call shrinks `pattern.length + text.length`, so the fuel
`likeMatch` supplies never runs out. -/
def likeMatchF : Nat → List Char → List Char → Bool
  | 0, _, _ => false
  | Nat.succ f, pat, text =>
    match pat, text with
    | [], [] => true
    | [], _ :: _ => false
    | '%' :: ps, [] => likeMatchF f ps []
    | '%' :: ps, c :: cs => likeMatchF f ps (c :: cs) || likeMatchF f ('%' :: ps) cs
    | '_' :: _, [] => false
    | '_' :: ps, _ :: cs => likeMatchF f ps cs
    | '\\' :: p :: ps, c :: cs => (p == c) && likeMatchF f ps cs
    | ['\\'], _ :: _ => false
    | p :: ps, c :: cs => (p == c) && likeMatchF f ps cs
    | _ :: _, [] => false

/-- SQL `LIKE` matching of a whole pattern against a whole text. -/
def likeMatch (pat text : List Char) : Bool :=
  likeMatchF (pat.length + text.length + 1) pat text

/-- The SQL predicate `hay ILIKE '%' || needle || '%'` for non-NULL
operands: the caller's value is interpolated between two `%` wildcards
and matched as a LIKE pattern, case-insensitively — so `%`, `_` and
backslash inside `needle` keep their pattern meaning rather than being
literal characters. -/
def ilikeContains (hay needle : String) : Bool :=
  likeMatch ('%' :: (needle.toList.map Char.toLower ++ ['%']))
    (hay.toList.map Char.toLower)

/-- Lexemes of a text under the `english` text-search configuration:
lowercase, treat non-alphanumeric characters as separators, split into
words (stemming and stop words are Postgres-internal and irrelevant to
the claims).  Used both for `to_tsvector` and `plainto_tsquery`. -/
def lexemes (s : String) : List String :=
  (splitWordsAux (s.toList.map
    (fun c => if c.isAlphanum then c.toLower else ' ')) []).map String.mk

/-- Lexemes of `plainto_tsquery('english', q)`. -/
def tsQueryLexemes (q : String) : List String :=
  lexemes q

/-- `search_vector @@ plainto_tsquery('english', q)`: every lexeme of the
query occurs in the document's vector, and the query has at least one
lexeme (an empty tsquery matches nothing in Postgres). -/
def tsMatch (vec : List String) (q : String) : Bool :=
  let ws := tsQueryLexemes q
  decide (ws ≠ []) && ws.all (fun w => vec.contains w)

/-- Kernel-evaluable rational addition (the field addition of `ℚ` is
declared irreducible upstream; this `mkRat` form is proved equal to it in
`ratAdd_eq` and lets concrete searches evaluate). -/
def ratAdd (a b : ℚ) : ℚ :=
  mkRat (a.num * b.den + b.num * a.den) (a.den * b.den)

/-- Kernel-evaluable rational multiplication, proved equal to the field
multiplication of `ℚ` in `ratMul_eq`. -/
def ratMul (a b : ℚ) : ℚ :=
  mkRat (a.num * b.num) (a.den * b.den)

/-- A row of the `tenders` table (the columns used by the search core;
migrations 001/002/004). Nullable columns are `Option`. -/
structure Tender where
  id : Nat
  title : Option String := none
  summary_raw : Option String := none
  buyer : Option String := none
  category : Option String := none
  external_id : Option String := none
  naics : Option String := none
  province : Option String := none
  value : Option ℚ := none
  deadline : Option Int := none
  url : Option String := none
  created_at : Int := 0
  updated_at : Int := 0
  organization : Option String := none
  description : Option String := none
  reference : Option String := none
  closing_date : Option Int := none
  contract_value : Option String := none
  source_name : Option String := none
  contact_name : Option String := none
  contact_email : Option String := none
  contact_phone : Option String := none
  documents_urls : Option (List String) := none
  original_url : Option String := none
deriving Repr, DecidableEq, Inhabited

/-- The text the generated `search_vector` column is built from
(migration 003): `coalesce(title,'') || ' ' || coalesce(summary_raw,'') ||
' ' || coalesce(organization,'') || ' ' || coalesce(description,'') || ' '
|| coalesce(category,'') || ' ' || coalesce(reference,'') || ' ' ||
coalesce(naics,'')`. -/
def searchBody (t : Tender) : String :=
  t.title.getD "" ++ " " ++
  t.summary_raw.getD "" ++ " " ++
  t.organization.getD "" ++ " " ++
  t.description.getD "" ++ " " ++
  t.category.getD "" ++ " " ++
  t.reference.getD "" ++ " " ++
  t.naics.getD ""

/-- The generated `search_vector` column: `to_tsvector('english', body)`,
modelled as the lexeme list of the body. -/
def searchVector (t : Tender) : List String :=
  lexemes (searchBody t)

/-- Postgres built-ins external to the repository, passed in abstractly:
`ts_rank` over plainto lexemes, the pgvector cosine-distance operator
`<=>`, and — for `search_tenders_advanced`, which feeds the raw query to
`to_tsquery` — tsquery matching, ranking and `ts_headline`. -/
structure PgEnv where
  tsRank : List String → List String → ℚ
  cosDist : List ℚ → List ℚ → ℚ
  tsMatchAdv : List String → String → Bool
  tsRankAdv : List String → String → ℚ
  tsHeadline : String → String → String

/-- A row of the `tender_embeddings` table (migrations 001/006). -/
structure EmbRow where
  tender_id : Nat
  embedding : List ℚ
  created_at : Int := 0
deriving Repr, DecidableEq, Inhabited

/-- `FROM tenders t LEFT JOIN tender_embeddings te ON t.id = te.tender_id`:
the rows the join contributes for one tender — one row per matching
embedding row, or a single row with a NULL embedding when none matches. -/
def leftJoinEmb (embs : List EmbRow) (t : Tender) : List (Tender × Option (List ℚ)) :=
  match embs.filter (fun e => e.tender_id == t.id) with
  | [] => [(t, none)]
  | es => es.map (fun e => (t, some e.embedding))

/-- The shared `WHERE` clause of `search_tenders_ai` and
`search_tenders_ai_count` (migration 006): province ILIKE filter, value
range, deadline range, and the text-search guard.  SQL three-valued logic:
a comparison against a NULL column is not true, so the row is excluded. -/
def tenderMatchesWhere (search_query : String) (province_filter : Option String)
    (min_value max_value : Option ℚ) (deadline_before deadline_after : Option Int)
    (t : Tender) : Bool :=
  (match province_filter with
   | none => true
   | some p => match t.province with
     | none => false
     | some pr => ilikeContains pr p) &&
  (match min_value with
   | none => true
   | some m => match t.value with
     | none => false
     | some v => m ≤ v) &&
  (match max_value with
   | none => true
   | some m => match t.value with
     | none => false
     | some v => v ≤ m) &&
  (match deadline_before with
   | none => true
   | some d => match t.deadline with
     | none => false
     | some dl => dl ≤ d) &&
  (match deadline_after with
   | none => true
   | some d => match t.deadline with
     | none => false
     | some dl => d ≤ dl) &&
  ((search_query == "") || tsMatch (searchVector t) search_query)

/-- The `RETURNS TABLE` row of `search_tenders_ai` (migration 006). -/
structure AiResultRow where
  id : Nat
  title : Option String
  summary_raw : Option String
  buyer : Option String
  category : Option String
  external_id : Option String
  naics : Option String
  province : Option String
  value : Option ℚ
  deadline : Option Int
  url : Option String
  created_at : Int
  updated_at : Int
  score : ℚ
  cosine_similarity : ℚ
  text_rank : ℚ
  province_bonus : ℚ
deriving Repr, DecidableEq, Inhabited

/-- Arguments of `search_tenders_ai` (migration 006), with the SQL
defaults. -/
structure AiSearchArgs where
  search_query : String
  query_embedding : List ℚ
  province_filter : Option String := none
  min_value : Option ℚ := none
  max_value : Option ℚ := none
  deadline_before : Option Int := none
  deadline_after : Option Int := none
  limit_count : Nat := 20
  offset_count : Nat := 0
deriving Repr, Inhabited

/-- The `SELECT` list of `search_tenders_ai` for one joined row:
`score = 0.6 * COALESCE(1 - (te.embedding <=> query_embedding), 0)
      + 0.3 * COALESCE(ts_rank(t.search_vector, plainto_tsquery(q)), 0)
      + 0.1 * CASE WHEN t.province ILIKE '%'||COALESCE(province_filter,'')||'%'
                   THEN 1.0 ELSE 0.0 END`,
with `cosine_similarity`, `text_rank` and `province_bonus` reported from
the same expressions.  A NULL embedding makes `1 - (e <=> q)` NULL, which
`COALESCE` turns into 0; a NULL province makes the ILIKE not true. -/
def scoreRow (env : PgEnv) (a : AiSearchArgs) (t : Tender)
    (emb : Option (List ℚ)) : AiResultRow :=
  let cos : ℚ := match emb with
    | none => 0
    | some e => 1 - env.cosDist e a.query_embedding
  let tr : ℚ := env.tsRank (searchVector t) (tsQueryLexemes a.search_query)
  let bonus : ℚ := match t.province with
    | none => 0
    | some pr => if ilikeContains pr (a.province_filter.getD "") then 1 else 0
  { id := t.id, title := t.title, summary_raw := t.summary_raw,
    buyer := t.buyer, category := t.category, external_id := t.external_id,
    naics := t.naics, province := t.province, value := t.value,
    deadline := t.deadline, url := t.url, created_at := t.created_at,
    updated_at := t.updated_at,
    score := ratAdd (ratAdd (ratMul (mkRat 6 10) cos) (ratMul (mkRat 3 10) tr))
      (ratMul (mkRat 1 10) bonus),
    cosine_similarity := cos, text_rank := tr, province_bonus := bonus }

/-- The full ordered (pre-pagination) result set of `search_tenders_ai`:
left join, `WHERE`, `SELECT` row construction, `ORDER BY score DESC`
(a stable sort; SQL leaves the order of ties unspecified). -/
def search_tenders_ai_rows (env : PgEnv) (tenders : List Tender)
    (embs : List EmbRow) (a : AiSearchArgs) : List AiResultRow :=
  let joined := tenders.flatMap (leftJoinEmb embs)
  let filtered := joined.filter (fun te =>
    tenderMatchesWhere a.search_query a.province_filter a.min_value
      a.max_value a.deadline_before a.deadline_after te.1)
  let scored := filtered.map (fun te => scoreRow env a te.1 te.2)
  List.insertionSort (fun r1 r2 => r2.score ≤ r1.score) scored

/-- `search_tenders_ai` (migration 006): ordered rows, then
`LIMIT limit_count OFFSET offset_count`. -/
def search_tenders_ai (env : PgEnv) (tenders : List Tender)
    (embs : List EmbRow) (a : AiSearchArgs) : List AiResultRow :=
  ((search_tenders_ai_rows env tenders embs a).drop a.offset_count).take a.limit_count

/-- `search_tenders_ai_count` (migration 006): `SELECT COUNT(*)` over the
same `WHERE` clause, with no join and no pagination. -/
def search_tenders_ai_count (tenders : List Tender) (search_query : String)
    (province_filter : Option String) (min_value max_value : Option ℚ)
    (deadline_before deadline_after : Option Int) : Nat :=
  (tenders.filter (tenderMatchesWhere search_query province_filter min_value
    max_value deadline_before deadline_after)).length

/-- The `RETURNS TABLE` row of `search_tenders_advanced` (migration 003). -/
structure AdvResultRow where
  id : Nat
  title : Option String
  organization : Option String
  description : Option String
  summary_raw : Option String
  category : Option String
  reference : Option String
  naics : Option String
  province : Option String
  closing_date : Option Int
  contract_value : Option String
  source_name : Option String
  contact_name : Option String
  contact_email : Option String
  contact_phone : Option String
  documents_urls : Option (List String)
  original_url : Option String
  rank : ℚ
  highlight : String
deriving Repr, DecidableEq, Inhabited

/-- Arguments of `search_tenders_advanced` (migration 003), with the SQL
defaults. -/
structure AdvSearchArgs where
  search_query : String
  buyer_filter : Option String := none
  province_filter : Option String := none
  naics_filter : Option String := none
  limit_count : Nat := 50
  offset_count : Nat := 0
deriving Repr, Inhabited

/-- The `WHERE` clause of `search_tenders_advanced`: tsquery match, buyer
ILIKE filter, and exact (case-sensitive) equality filters on `province`
and `naics`.  A NULL column compared with `=` or ILIKE is not true. -/
def advMatchesWhere (env : PgEnv) (a : AdvSearchArgs) (t : Tender) : Bool :=
  env.tsMatchAdv (searchVector t) a.search_query &&
  (match a.buyer_filter with
   | none => true
   | some b => match t.organization with
     | none => false
     | some o => ilikeContains o b) &&
  (match a.province_filter with
   | none => true
   | some p => t.province == some p) &&
  (match a.naics_filter with
   | none => true
   | some n => t.naics == some n)

/-- The `SELECT` row of `search_tenders_advanced`: the tender columns, a
rank from `ts_rank(search_vector, to_tsquery(q))`, and a highlight from
`ts_headline(COALESCE(summary_raw, description, ''), to_tsquery(q), …)`. -/
def advRow (env : PgEnv) (a : AdvSearchArgs) (t : Tender) : AdvResultRow :=
  { id := t.id, title := t.title, organization := t.organization,
    description := t.description, summary_raw := t.summary_raw,
    category := t.category, reference := t.reference, naics := t.naics,
    province := t.province, closing_date := t.closing_date,
    contract_value := t.contract_value, source_name := t.source_name,
    contact_name := t.contact_name, contact_email := t.contact_email,
    contact_phone := t.contact_phone, documents_urls := t.documents_urls,
    original_url := t.original_url,
    rank := env.tsRankAdv (searchVector t) a.search_query,
    highlight := env.tsHeadline ((t.summary_raw.orElse (fun _ => t.description)).getD "")
      a.search_query }

/-- `search_tenders_advanced` (migration 003): filter, project,
`ORDER BY rank DESC`, `LIMIT limit_count OFFSET offset_count`. -/
def search_tenders_advanced (env : PgEnv) (tenders : List Tender)
    (a : AdvSearchArgs) : List AdvResultRow :=
  let rows := (tenders.filter (advMatchesWhere env a)).map (advRow env a)
  let sorted := List.insertionSort (fun r1 r2 => r2.rank ≤ r1.rank) rows
  (sorted.drop a.offset_count).take a.limit_count

/-- `upsert_tender_embedding` (migration 006):
`INSERT INTO tender_embeddings (tender_id, embedding) VALUES (…)
ON CONFLICT (tender_id) DO UPDATE SET embedding = EXCLUDED.embedding,
created_at = NOW()`.  The unique index on `tender_id` makes the conflict
target the row with the same `tender_id`; `now` stands for `NOW()`. -/
def upsert_tender_embedding (table : List EmbRow) (p_tender_id : Nat)
    (p_embedding : List ℚ) (now : Int) : List EmbRow :=
  if table.any (fun r => r.tender_id == p_tender_id) then
    table.map (fun r =>
      if r.tender_id == p_tender_id then
        { r with embedding := p_embedding, created_at := now }
      else r)
  else
    table ++ [{ tender_id := p_tender_id, embedding := p_embedding, created_at := now }]

/-- A sequence of upsert operations applied to the empty store. -/
def applyUpserts (ops : List (Nat × List ℚ × Int)) : List EmbRow :=
  ops.foldl (fun tab op => upsert_tender_embedding tab op.1 op.2.1 op.2.2) []

/-- The stored embedding for a tender id, if any (lookup through the
unique index on `tender_id`). -/
def findEmb (table : List EmbRow) (i : Nat) : Option (List ℚ) :=
  (table.find? (fun r => r.tender_id == i)).map (fun r => r.embedding)

/-- Tokens of the advanced-search query language.
Modelled from the spec: the backend query-parsing layer (component
Query Parser, spec section 4.1) is not under src/ — only its frontend
callers and the SQL functions it invokes are — so its token structure is
modelled from the spec wording: parentheses, the case-insensitive boolean
keywords, quoted phrases, recognized field prefixes, and plain words. -/
inductive QTok
  | lparen
  | rparen
  | opAnd
  | opOr
  | opNot
  | phrase (s : String)
  | fieldTok (f v : String)
  | word (s : String)
deriving Repr, DecidableEq, Inhabited

/-- Atoms of a parsed boolean query tree (spec section 3, ParsedQuery). -/
inductive QAtom
  | qword (s : String)
  | qphrase (s : String)
  | qfield (f v : String)
deriving Repr, DecidableEq

/-- Boolean query tree over atoms (spec section 3, ParsedQuery). -/
inductive QExpr
  | atom (a : QAtom)
  | andE (l r : QExpr)
  | orE (l r : QExpr)
  | notE (e : QExpr)
deriving Repr, DecidableEq

/-- Character scanner for raw tokens: splits on spaces and parentheses
outside double quotes, keeps quoted stretches (including their spaces)
inside one raw token.  `inQ` is the in-quotes state, `cur` the reversed
characters of the token being built. -/
def scanToks : List Char → Bool → List Char → List String
  | [], _, cur => if cur.isEmpty then [] else [String.mk cur.reverse]
  | c :: rest, true, cur =>
    if c == '"' then scanToks rest false (c :: cur)
    else scanToks rest true (c :: cur)
  | c :: rest, false, cur =>
    if c == '"' then scanToks rest true (c :: cur)
    else if c == ' ' then
      (if cur.isEmpty then [] else [String.mk cur.reverse]) ++ scanToks rest false []
    else if c == '(' || c == ')' then
      (if cur.isEmpty then [] else [String.mk cur.reverse]) ++
        (String.singleton c :: scanToks rest false [])
    else scanToks rest false (c :: cur)

/-- The recognized field-filter names (spec: an explicit allow-list). -/
def recognizedField (f : String) : Bool :=
  ["buyer", "province", "naics", "category"].contains f

/-- Whether a token is a double-quoted string of length at least two. -/
def isQuoted (w : String) : Bool :=
  match w.toList with
  | '"' :: rest => rest.getLast? == some '"'
  | _ => false

/-- Strip one layer of surrounding double quotes, if present. -/
def stripQuotes (v : String) : String :=
  match v.toList with
  | '"' :: rest =>
    if rest.getLast? == some '"' then String.mk rest.dropLast else v
  | _ => v

/-- Classify one raw token.  Unrecognized field prefixes stay literal
text, per the spec. -/
def classifyTok (w : String) : QTok :=
  if w == "(" then QTok.lparen
  else if w == ")" then QTok.rparen
  else if lowerStr w == "and" then QTok.opAnd
  else if lowerStr w == "or" then QTok.opOr
  else if lowerStr w == "not" then QTok.opNot
  else if isQuoted w then
    QTok.phrase (stripQuotes w)
  else
    match w.toList.splitOn ':' with
    | [f, v] =>
      if recognizedField (lowerStr (String.mk f)) && v ≠ [] then
        QTok.fieldTok (lowerStr (String.mk f)) (stripQuotes (String.mk v))
      else QTok.word w
    | _ => QTok.word w

/-- Tokenize a raw query string. -/
def tokenize (q : String) : List QTok :=
  (scanToks q.toList false []).map classifyTok

/-- Parenthesis-balance scan: `n` open parentheses so far; a close with
none open, or leftover opens at the end, fail the scan. -/
def parenScan : List QTok → Nat → Bool
  | [], n => n == 0
  | QTok.lparen :: ts, n => parenScan ts (n + 1)
  | QTok.rparen :: ts, n => decide (0 < n) && parenScan ts (n - 1)
  | _ :: ts, n => parenScan ts n

/-- Whether the parentheses of a token list are balanced. -/
def balancedParens (ts : List QTok) : Bool :=
  parenScan ts 0

/-- A dangling boolean operator at end-of-input (spec section 4.1). -/
def danglingOp (ts : List QTok) : Bool :=
  match ts.getLast? with
  | some QTok.opAnd => true
  | some QTok.opOr => true
  | some QTok.opNot => true
  | _ => false

mutual

/-- Primary: a parenthesized disjunction or a single atom. Fuel-indexed
recursive descent; the fuel only bounds depth, it is chosen ample. -/
def parsePrim : Nat → List QTok → Option (QExpr × List QTok)
  | 0, _ => none
  | Nat.succ fuel, toks =>
    match toks with
    | QTok.lparen :: rest =>
      match parseOrE fuel rest with
      | some (e, QTok.rparen :: rest2) => some (e, rest2)
      | _ => none
    | QTok.word s :: rest => some (QExpr.atom (QAtom.qword s), rest)
    | QTok.phrase s :: rest => some (QExpr.atom (QAtom.qphrase s), rest)
    | QTok.fieldTok f v :: rest => some (QExpr.atom (QAtom.qfield f v), rest)
    | _ => none

/-- `NOT` binds tighter than `AND` (spec section 4.1). -/
def parseNotE : Nat → List QTok → Option (QExpr × List QTok)
  | 0, _ => none
  | Nat.succ fuel, toks =>
    match toks with
    | QTok.opNot :: rest => (parseNotE fuel rest).map (fun p => (QExpr.notE p.1, p.2))
    | _ => parsePrim fuel toks

/-- A left-associative `AND` chain; adjacent terms with no keyword are an
implicit `AND` (spec section 3, free-text terms). -/
def parseAndE : Nat → List QTok → Option (QExpr × List QTok)
  | 0, _ => none
  | Nat.succ fuel, toks =>
    match parseNotE fuel toks with
    | some (e, rest) => parseAndTail fuel e rest
    | none => none

def parseAndTail : Nat → QExpr → List QTok → Option (QExpr × List QTok)
  | 0, _, _ => none
  | Nat.succ fuel, acc, toks =>
    match toks with
    | [] => some (acc, [])
    | QTok.opOr :: _ => some (acc, toks)
    | QTok.rparen :: _ => some (acc, toks)
    | QTok.opAnd :: rest =>
      match parseNotE fuel rest with
      | some (e, rest2) => parseAndTail fuel (QExpr.andE acc e) rest2
      | none => none
    | _ =>
      match parseNotE fuel toks with
      | some (e, rest2) => parseAndTail fuel (QExpr.andE acc e) rest2
      | none => none

/-- A left-associative `OR` chain; `AND` binds tighter than `OR`. -/
def parseOrE : Nat → List QTok → Option (QExpr × List QTok)
  | 0, _ => none
  | Nat.succ fuel, toks =>
    match parseAndE fuel toks with
    | some (e, rest) => parseOrTail fuel e rest
    | none => none

def parseOrTail : Nat → QExpr → List QTok → Option (QExpr × List QTok)
  | 0, _, _ => none
  | Nat.succ fuel, acc, toks =>
    match toks with
    | QTok.opOr :: rest =>
      match parseAndE fuel rest with
      | some (e, rest2) => parseOrTail fuel (QExpr.orE acc e) rest2
      | none => none
    | _ => some (acc, toks)

end

/-- The ParsedQuery record (spec section 3). -/
structure ParsedQuery where
  free_text_terms : List String
  boolean_tree : Option QExpr
  field_filters : List (String × String)
  wildcards : List String
  has_errors : Bool
  error_message : String
deriving Repr, DecidableEq, Inhabited

/-- Whether a token is a wildcard term (contains `*` or `?`). -/
def isWildcardTok : QTok → Option String
  | QTok.word s => if s.toList.contains '*' || s.toList.contains '?' then some s else none
  | _ => none

/-- Modelled from the spec: the Query Parser (spec section 4.1) of the
missing backend layer.  It never fails: on unbalanced parentheses or a
dangling boolean operator at end-of-input (or any other parse failure) it
falls back to treating the entire input as free text, sets
`has_errors = true` and fills `error_message`; otherwise it returns the
parsed boolean tree with the extracted field filters and wildcards. -/
def parseQuery (q : String) : ParsedQuery :=
  let toks := tokenize q
  let fallback := fun (msg : String) =>
    { free_text_terms := tsQueryLexemes q, boolean_tree := none,
      field_filters := [], wildcards := toks.filterMap isWildcardTok,
      has_errors := true, error_message := msg }
  if ¬ balancedParens toks then
    fallback "Unbalanced parentheses in query; input treated as free text"
  else if danglingOp toks then
    fallback "Dangling boolean operator at end of query; input treated as free text"
  else
    match parseOrE (4 * (toks.length + 1)) toks with
    | some (e, []) =>
      { free_text_terms := toks.filterMap (fun t =>
          match t with
          | QTok.word s => some s
          | QTok.phrase s => some s
          | _ => none),
        boolean_tree := some e,
        field_filters := toks.filterMap (fun t =>
          match t with
          | QTok.fieldTok f v => some (f, v)
          | _ => none),
        wildcards := toks.filterMap isWildcardTok,
        has_errors := false, error_message := "" }
    | _ => fallback "Could not parse query; input treated as free text"

/-- Modelled from the spec: evaluation of a parsed boolean tree against a
document (spec section 4.2).  A word matches a lexeme of the indexed body,
a phrase requires consecutive-lexeme adjacency, a field filter is a
case-insensitive containment test on the named field; `AND` intersects,
`OR` unions, `NOT` subtracts.  (Wildcard expansion is only collected, not
evaluated; no settled claim depends on it.) -/
def evalQExpr (t : Tender) : QExpr → Bool
  | QExpr.atom (QAtom.qword s) => (searchVector t).contains (lowerStr s)
  | QExpr.atom (QAtom.qphrase s) => hasSeg (tsQueryLexemes s) (searchVector t)
  | QExpr.atom (QAtom.qfield f v) =>
    let fieldVal : Option String :=
      if f == "buyer" then t.organization
      else if f == "province" then t.province
      else if f == "naics" then t.naics
      else if f == "category" then t.category
      else none
    match fieldVal with
    | none => false
    | some s => ilikeContains s v
  | QExpr.andE l r => evalQExpr t l && evalQExpr t r
  | QExpr.orE l r => evalQExpr t l || evalQExpr t r
  | QExpr.notE e => ! evalQExpr t e

/-- The response of the backend Search operation, as far as the settled
claims need it (results plus parse diagnostics). -/
structure SearchResponse where
  results : List Tender
  total : Nat
  query_info : ParsedQuery
deriving Repr, DecidableEq

/-- Modelled from the spec: the advanced-search request path of the
missing backend layer (spec sections 4.1, 6, 7).  Parse the query; on
parse degradation run a best-effort free-text search of the entire input
(the plainto predicate over the indexed body); otherwise evaluate the
boolean tree.  The request never fails. -/
def searchRequest (tenders : List Tender) (q : String) : SearchResponse :=
  let pq := parseQuery q
  let found :=
    if pq.has_errors then
      tenders.filter (fun t => tsMatch (searchVector t) q)
    else
      match pq.boolean_tree with
      | some e => tenders.filter (fun t => evalQExpr t e)
      | none => tenders.filter (fun t => tsMatch (searchVector t) q)
  { results := found, total := found.length, query_info := pq }

/-- Modelled from the spec: the pagination flag of the missing backend
layer — `has_more` holds exactly when `offset + limit < total`
(spec section 4.4). -/
def hasMorePage (offset limit total : Nat) : Bool :=
  decide (offset + limit < total)

/-- A trivial Postgres environment for concrete evaluations: zero ranks,
zero cosine distance, tsquery matches everything, identity headline. -/
def env0 : PgEnv :=
  { tsRank := fun _ _ => 0, cosDist := fun _ _ => 0,
    tsMatchAdv := fun _ _ => true, tsRankAdv := fun _ _ => 0,
    tsHeadline := fun s _ => s }

/-- Concrete tenders for witnesses and counterexamples. -/
def tOnt : Tender := { id := 0, province := some "Ontario", deadline := some 5 }

def tBC : Tender := { id := 1, province := some "British Columbia", deadline := some 3 }

def tD5 : Tender := { id := 10, deadline := some 5 }

def tD3 : Tender := { id := 11, deadline := some 3 }

def t8a : Tender := { id := 20, summary_raw := some "bridge" }

def t8b : Tender := { id := 21 }

def t8c : Tender := { id := 22, summary_raw := some "bridge" }

def tBridge : Tender := { id := 30, title := some "Bridge repair works" }

/-- Concrete argument records for witnesses and counterexamples. -/
def aEmpty : AiSearchArgs := { search_query := "", query_embedding := [] }

def aOnt : AiSearchArgs :=
  { search_query := "", query_embedding := [], province_filter := some "ont" }

def aOff : AiSearchArgs :=
  { search_query := "", query_embedding := [], offset_count := 1000 }

def aUnd : AiSearchArgs :=
  { search_query := "", query_embedding := [], province_filter := some "_" }

/-- Two upserts for tender 1 feeding the C9 witness. -/
def ops9 : List (Nat × List ℚ × Int) := [(1, ([2], 0)), (1, ([3], 1))]

/-- First returned row of a concrete hybrid search (used by witnesses). -/
def rowOntEmpty : AiResultRow := (search_tenders_ai env0 [tOnt] [] aEmpty).getD 0 default

def rowOntFiltered : AiResultRow := (search_tenders_ai env0 [tOnt] [] aOnt).getD 0 default


/-- The `mkRat` form of addition agrees with the field addition of `ℚ`. -/
theorem ratAdd_eq (a b : ℚ) : ratAdd a b = a + b :=
  (Rat.add_def' a b).symm

/-- The `mkRat` form of multiplication agrees with the field
multiplication of `ℚ`. -/
theorem ratMul_eq (a b : ℚ) : ratMul a b = a * b := by
  rw [ratMul, Rat.mul_def, Rat.normalize_eq_mkRat]

/-- Evaluation of `mkRat` weights as fractions. -/
theorem mkRat_as_div (n : Int) (d : Nat) : (mkRat n d : ℚ) = (n : ℚ) / (d : ℚ) := by
  rw [Rat.mkRat_eq_divInt, Rat.divInt_eq_div]
  norm_num

/-- Membership in the hybrid search output comes from a joined, filtered
source row. -/
theorem mem_search_ai (env : PgEnv) (tenders : List Tender) (embs : List EmbRow)
    (a : AiSearchArgs) (r : AiResultRow)
    (hr : r ∈ search_tenders_ai env tenders embs a) :
    ∃ te : Tender × Option (List ℚ),
      te ∈ tenders.flatMap (leftJoinEmb embs) ∧
      tenderMatchesWhere a.search_query a.province_filter a.min_value
        a.max_value a.deadline_before a.deadline_after te.1 = true ∧
      r = scoreRow env a te.1 te.2 := by
  unfold search_tenders_ai search_tenders_ai_rows at hr
  have h1 := List.mem_of_mem_drop (List.mem_of_mem_take hr)
  rw [List.mem_insertionSort] at h1
  obtain ⟨te, hte, hr2⟩ := List.mem_map.mp h1
  obtain ⟨hmem, hw⟩ := List.mem_filter.mp hte
  exact ⟨te, hmem, hw, hr2.symm⟩

/-- C1: for every row returned by the hybrid ranker `search_tenders_ai`
(which always ranks by relevance), the reported combined score equals
`w_lex * text_rank + w_vec * cosine_similarity + w_cat * province_bonus`
with the default weights `w_lex = 0.3`, `w_vec = 0.6`, `w_cat = 0.1`,
where the three components are exactly the per-row quantities the
function reports alongside the score (the lexical rank enters the formula
unchanged, i.e. the observed normalization is the identity). -/
theorem C1_hybrid_score_formula (env : PgEnv) (tenders : List Tender)
    (embs : List EmbRow) (a : AiSearchArgs) (r : AiResultRow)
    (hr : r ∈ search_tenders_ai env tenders embs a) :
    r.score = 3/10 * r.text_rank + 6/10 * r.cosine_similarity
      + 1/10 * r.province_bonus := by
  obtain ⟨te, _, _, rfl⟩ := mem_search_ai env tenders embs a r hr
  simp only [scoreRow, ratAdd_eq, ratMul_eq, mkRat_as_div]
  norm_num
  ring

/-- Witness for C1 at a concrete input. -/
theorem C1_hybrid_score_formula_witness :
    rowOntEmpty ∈ search_tenders_ai env0 [tOnt] [] aEmpty ∧
    rowOntEmpty.score = 3/10 * rowOntEmpty.text_rank
      + 6/10 * rowOntEmpty.cosine_similarity
      + 1/10 * rowOntEmpty.province_bonus :=
  ⟨by decide, C1_hybrid_score_formula env0 [tOnt] [] aEmpty rowOntEmpty (by decide)⟩

/-- C2 as stated is false at these inputs, in two ways.  First, with no
province filter supplied there is no filter value for the province to
contain, yet the bonus is 1.0: the code coalesces the missing filter to
the empty string, and every non-null province matches the pattern
`'%%'`.  Second, with filter "_" the bonus is 1.0 for "Ontario" although
"Ontario" does not contain "_" as a substring: the filter is
interpolated into an ILIKE pattern, where `_` is a one-character
wildcard. -/
theorem C2_counterexample :
    (aEmpty.province_filter = none ∧
     (search_tenders_ai env0 [tOnt] [] aEmpty).map (fun r => r.province_bonus)
       = [1]) ∧
    (aUnd.province_filter = some "_" ∧
     hasSeg ("_".toList.map Char.toLower) ("Ontario".toList.map Char.toLower)
       = false ∧
     (search_tenders_ai env0 [tOnt] [] aUnd).map (fun r => r.province_bonus)
       = [1]) :=
  ⟨⟨rfl, by decide⟩, rfl, by decide, by decide⟩

/-- C2 (amended): for every row of the hybrid ranker, `province_bonus` is
1.0 exactly when the document's province is non-null and
case-insensitively matches the ILIKE pattern `'%' || filter || '%'` with
the missing filter coalesced to the empty string — so with no filter
supplied every document with a non-null province receives the bonus, a
document with a null province gets 0.0, and the LIKE metacharacters
`%`, `_`, `\` in the filter keep their wildcard meaning (for a
metacharacter-free filter the test is substring containment). -/
theorem C2_province_bonus_amended (env : PgEnv) (tenders : List Tender)
    (embs : List EmbRow) (a : AiSearchArgs) (r : AiResultRow)
    (hr : r ∈ search_tenders_ai env tenders embs a) :
    r.province_bonus =
      match r.province with
      | none => 0
      | some pr => if ilikeContains pr (a.province_filter.getD "") then 1 else 0 := by
  obtain ⟨te, _, _, rfl⟩ := mem_search_ai env tenders embs a r hr
  simp only [scoreRow]

/-- Witness for the amended C2 at a concrete input with a filter set. -/
theorem C2_province_bonus_amended_witness :
    rowOntFiltered ∈ search_tenders_ai env0 [tOnt] [] aOnt ∧
    rowOntFiltered.province_bonus =
      match rowOntFiltered.province with
      | none => 0
      | some pr => if ilikeContains pr (aOnt.province_filter.getD "") then 1 else 0 :=
  ⟨by decide,
   C2_province_bonus_amended env0 [tOnt] [] aOnt rowOntFiltered (by decide)⟩

/-- C3 as stated is false at this input: the embedding store is empty, so
tender 0 has no stored vector, yet the similarity output of the hybrid
ranker contains an entry for it with cosine similarity 0 — the document
is zero-scored via `LEFT JOIN` and `COALESCE`, not omitted. -/
theorem C3_counterexample :
    (search_tenders_ai env0 [tOnt] [] aEmpty).map
      (fun r => (r.id, r.cosine_similarity)) = [(0, 0)] := by
  decide

/-- C3 (amended): a document with no stored embedding vector that passes
the filters is not omitted: the (pre-pagination) result set of the hybrid
ranker contains a row for it, and that row reports cosine similarity 0
(zero-scored via the left join and `COALESCE`). -/
theorem C3_no_vector_zero_scored (env : PgEnv) (tenders : List Tender)
    (embs : List EmbRow) (a : AiSearchArgs) (t : Tender)
    (ht : t ∈ tenders)
    (hw : tenderMatchesWhere a.search_query a.province_filter a.min_value
      a.max_value a.deadline_before a.deadline_after t = true)
    (hn : embs.filter (fun e => e.tender_id == t.id) = []) :
    ∃ r ∈ search_tenders_ai_rows env tenders embs a,
      r.id = t.id ∧ r.cosine_similarity = 0 := by
  refine ⟨scoreRow env a t none, ?_, rfl, rfl⟩
  unfold search_tenders_ai_rows
  rw [List.mem_insertionSort]
  refine List.mem_map.mpr ⟨(t, none), List.mem_filter.mpr ⟨?_, hw⟩, rfl⟩
  refine List.mem_flatMap.mpr ⟨t, ht, ?_⟩
  unfold leftJoinEmb
  rw [hn]
  exact List.mem_singleton.mpr rfl

/-- Witness for the amended C3 at a concrete input. -/
theorem C3_no_vector_zero_scored_witness :
    ∃ r ∈ search_tenders_ai_rows env0 [tOnt] [] aEmpty,
      r.id = tOnt.id ∧ r.cosine_similarity = 0 :=
  C3_no_vector_zero_scored env0 [tOnt] [] aEmpty tOnt (by decide) (by decide) rfl

/-- C4 as stated is false at this input: with province filter "_" the
hybrid path returns the Ontario tender — `_` is interpolated into the
ILIKE pattern and acts as a one-character wildcard — although "Ontario"
does not case-insensitively contain "_" as a substring. -/
theorem C4_counterexample :
    aUnd.province_filter = some "_" ∧
    (search_tenders_ai env0 [tOnt] [] aUnd).map (fun r => r.province)
      = [some "Ontario"] ∧
    hasSeg ("_".toList.map Char.toLower) ("Ontario".toList.map Char.toLower)
      = false :=
  ⟨rfl, by decide, by decide⟩

/-- C4 (amended): with a province filter `P` set, every hybrid-path
result has a non-null province matching the ILIKE pattern
`'%' || P || '%'` case-insensitively (for `P` without the LIKE
metacharacters `%`, `_`, `\` this is exactly substring containment),
and every advanced-path result has province exactly equal to `P`;
documents failing the respective test are excluded from the results. -/
theorem C4_province_filter_amended :
    (∀ (env : PgEnv) (tenders : List Tender) (embs : List EmbRow)
      (a : AiSearchArgs) (P : String), a.province_filter = some P →
      ∀ r ∈ search_tenders_ai env tenders embs a,
        ∃ pr, r.province = some pr ∧ ilikeContains pr P = true) ∧
    (∀ (env : PgEnv) (tenders : List Tender) (a : AdvSearchArgs) (P : String),
      a.province_filter = some P →
      ∀ r ∈ search_tenders_advanced env tenders a,
        r.province = some P) := by
  constructor
  · intro env tenders embs a P hP r hr
    obtain ⟨te, _, hw, rfl⟩ := mem_search_ai env tenders embs a r hr
    unfold tenderMatchesWhere at hw
    rw [hP] at hw
    simp only [Bool.and_eq_true] at hw
    have h1 := hw.1.1.1.1.1
    cases hpr : te.1.province with
    | none => rw [hpr] at h1; exact absurd h1 (by simp)
    | some pr =>
      rw [hpr] at h1
      exact ⟨pr, by simp [scoreRow, hpr], h1⟩
  · intro env tenders a P hP r hr
    unfold search_tenders_advanced at hr
    have h1 := List.mem_of_mem_drop (List.mem_of_mem_take hr)
    rw [List.mem_insertionSort] at h1
    obtain ⟨t, ht, rfl⟩ := List.mem_map.mp h1
    obtain ⟨_, hw⟩ := List.mem_filter.mp ht
    unfold advMatchesWhere at hw
    rw [hP] at hw
    simp only [Bool.and_eq_true] at hw
    have h2 : t.province = some P := by
      have := hw.1.2
      simpa using this
    simp [advRow, h2]

/-- Witness for the amended C4 at a concrete input (the hybrid path,
filter "ont"). -/
theorem C4_province_filter_amended_witness :
    ∃ pr, rowOntFiltered.province = some pr ∧ ilikeContains pr "ont" = true :=
  C4_province_filter_amended.1 env0 [tOnt] [] aOnt "ont" rfl
    rowOntFiltered (by decide)

/-- Number of opening parenthesis tokens. -/
def openCount : List QTok → Nat
  | [] => 0
  | QTok.lparen :: ts => openCount ts + 1
  | _ :: ts => openCount ts

/-- Number of closing parenthesis tokens. -/
def closeCount : List QTok → Nat
  | [] => 0
  | QTok.rparen :: ts => closeCount ts + 1
  | _ :: ts => closeCount ts

/-- A successful balance scan started with `n` open parentheses closes
exactly the opens: `n + openCount = closeCount`. -/
theorem parenScan_balance (ts : List QTok) : ∀ n : Nat, parenScan ts n = true →
    n + openCount ts = closeCount ts := by
  induction ts with
  | nil =>
    intro n h
    simp only [parenScan, beq_iff_eq] at h
    simp [openCount, closeCount, h]
  | cons t ts ih =>
    intro n h
    cases t with
    | lparen =>
      simp only [parenScan] at h
      have := ih _ h
      simp only [openCount, closeCount]
      omega
    | rparen =>
      simp only [parenScan, Bool.and_eq_true, decide_eq_true_eq] at h
      have := ih _ h.2
      have hn := h.1
      simp only [openCount, closeCount]
      omega
    | opAnd =>
      simp only [parenScan] at h
      have := ih _ h
      simp only [openCount, closeCount]
      omega
    | opOr =>
      simp only [parenScan] at h
      have := ih _ h
      simp only [openCount, closeCount]
      omega
    | opNot =>
      simp only [parenScan] at h
      have := ih _ h
      simp only [openCount, closeCount]
      omega
    | phrase s =>
      simp only [parenScan] at h
      have := ih _ h
      simp only [openCount, closeCount]
      omega
    | fieldTok f v =>
      simp only [parenScan] at h
      have := ih _ h
      simp only [openCount, closeCount]
      omega
    | word s =>
      simp only [parenScan] at h
      have := ih _ h
      simp only [openCount, closeCount]
      omega

/-- A query whose tokens hold an unmatched opening parenthesis fails the
balance check. -/
theorem unbalanced_of_excess_open (ts : List QTok)
    (h : closeCount ts < openCount ts) : balancedParens ts = false := by
  cases hb : balancedParens ts with
  | false => rfl
  | true =>
    have := parenScan_balance ts 0 hb
    omega

/-- On unbalanced parentheses the parser degrades to the documented
free-text fallback record. -/
theorem parseQuery_unbalanced (q : String)
    (h : balancedParens (tokenize q) = false) :
    parseQuery q =
      { free_text_terms := tsQueryLexemes q, boolean_tree := none,
        field_filters := [],
        wildcards := (tokenize q).filterMap isWildcardTok,
        has_errors := true,
        error_message :=
          "Unbalanced parentheses in query; input treated as free text" } := by
  simp only [parseQuery, h]
  simp

/-- On a balanced query with a dangling boolean operator at end-of-input
the parser degrades to the documented free-text fallback record. -/
theorem parseQuery_dangling (q : String)
    (hb : balancedParens (tokenize q) = true)
    (hd : danglingOp (tokenize q) = true) :
    parseQuery q =
      { free_text_terms := tsQueryLexemes q, boolean_tree := none,
        field_filters := [],
        wildcards := (tokenize q).filterMap isWildcardTok,
        has_errors := true,
        error_message :=
          "Dangling boolean operator at end of query; input treated as free text" } := by
  simp only [parseQuery, hb, hd]
  simp

/-- C5: for every query string with unbalanced parentheses — which covers
every unmatched opening parenthesis, including inputs with equal
parenthesis counts in the wrong order — or with a dangling boolean
operator at end-of-input, the search request does not fail: the response
reports `has_errors = true` with a non-empty `error_message`, and its
results are exactly the best-effort free-text matches of the entire
input (the plainto predicate over the indexed body), not an empty or
failed response. -/
theorem C5_graceful_degradation (tenders : List Tender) (q : String)
    (h : balancedParens (tokenize q) = false ∨
      danglingOp (tokenize q) = true) :
    (searchRequest tenders q).query_info.has_errors = true ∧
    (searchRequest tenders q).query_info.error_message ≠ "" ∧
    (searchRequest tenders q).results
      = tenders.filter (fun t => tsMatch (searchVector t) q) := by
  by_cases hb : balancedParens (tokenize q) = true
  · have hd : danglingOp (tokenize q) = true := by
      rcases h with h | h
      · rw [hb] at h
        exact absurd h (by decide)
      · exact h
    have hp := parseQuery_dangling q hb hd
    unfold searchRequest
    rw [hp]
    refine ⟨rfl, ?_, ?_⟩
    · dsimp only
      decide
    · simp
  · have hb2 : balancedParens (tokenize q) = false := by
      revert hb
      cases balancedParens (tokenize q) <;> simp
    have hp := parseQuery_unbalanced q hb2
    unfold searchRequest
    rw [hp]
    refine ⟨rfl, ?_, ?_⟩
    · dsimp only
      decide
    · simp

/-- Witness for C5: a concrete query with an unmatched opening
parenthesis still returns the free-text match for the bridge tender. -/
theorem C5_graceful_degradation_witness :
    (balancedParens (tokenize "(bridge repair") = false ∨
     danglingOp (tokenize "(bridge repair") = true) ∧
    ((searchRequest [tBridge] "(bridge repair").query_info.has_errors = true ∧
     (searchRequest [tBridge] "(bridge repair").query_info.error_message ≠ "" ∧
     (searchRequest [tBridge] "(bridge repair").results
       = [tBridge].filter (fun t => tsMatch (searchVector t) "(bridge repair")) :=
  ⟨Or.inl (by decide),
   C5_graceful_degradation [tBridge] "(bridge repair" (Or.inl (by decide))⟩

/-- C6 as stated is false at this input: the two returned rows tie at
combined score 0, yet their deadlines (the stored closing dates) come
back as 5 then 3 — later-closing first — because the SQL orders by score
only: equal-score ties follow the scan order, not closing date
ascending. -/
theorem C6_counterexample :
    ((search_tenders_ai env0 [tD5, tD3] [] aEmpty).map (fun r => r.score)
      = [0, 0]) ∧
    ((search_tenders_ai env0 [tD5, tD3] [] aEmpty).map (fun r => r.deadline)
      = [some 5, some 3]) := by
  decide

/-- C6 (amended): under the default relevance sort each search path
returns a page ordered by its combined score descending
(`search_tenders_ai` by `score`, `search_tenders_advanced` by `rank`);
the order of equal-score ties is unspecified — there is no
closing-date-ascending tiebreak. -/
theorem C6_relevance_order_amended :
    (∀ (env : PgEnv) (tenders : List Tender) (embs : List EmbRow)
      (a : AiSearchArgs),
      (search_tenders_ai env tenders embs a).Sorted
        (fun r1 r2 => r2.score ≤ r1.score)) ∧
    (∀ (env : PgEnv) (tenders : List Tender) (a : AdvSearchArgs),
      (search_tenders_advanced env tenders a).Sorted
        (fun r1 r2 => r2.rank ≤ r1.rank)) := by
  constructor
  · intro env tenders embs a
    haveI : IsTotal AiResultRow (fun r1 r2 => r2.score ≤ r1.score) :=
      ⟨fun x y => le_total y.score x.score⟩
    haveI : IsTrans AiResultRow (fun r1 r2 => r2.score ≤ r1.score) :=
      ⟨fun _ _ _ hxy hyz => le_trans hyz hxy⟩
    simp only [search_tenders_ai, search_tenders_ai_rows]
    exact List.Pairwise.sublist
      ((List.take_sublist _ _).trans (List.drop_sublist _ _))
      (List.sorted_insertionSort _ _)
  · intro env tenders a
    haveI : IsTotal AdvResultRow (fun r1 r2 => r2.rank ≤ r1.rank) :=
      ⟨fun x y => le_total y.rank x.rank⟩
    haveI : IsTrans AdvResultRow (fun r1 r2 => r2.rank ≤ r1.rank) :=
      ⟨fun _ _ _ hxy hyz => le_trans hyz hxy⟩
    simp only [search_tenders_advanced]
    exact List.Pairwise.sublist
      ((List.take_sublist _ _).trans (List.drop_sublist _ _))
      (List.sorted_insertionSort _ _)

/-- Under the unique index on `tender_id`, at most one embedding row
matches a given tender id. -/
theorem filter_unique_len : ∀ (embs : List EmbRow),
    (embs.map (fun e => e.tender_id)).Nodup →
    ∀ i, (embs.filter (fun e => e.tender_id == i)).length ≤ 1 := by
  intro embs
  induction embs with
  | nil => intro _ i; simp
  | cons e es ih =>
    intro hE i
    rw [List.map_cons, List.nodup_cons] at hE
    obtain ⟨hnotin, hnd⟩ := hE
    by_cases h : e.tender_id = i
    · rw [List.filter_cons_of_pos (by simp [h])]
      have hes : es.filter (fun x => x.tender_id == i) = [] := by
        rw [List.filter_eq_nil_iff]
        intro x hx
        simp only [beq_iff_eq]
        intro hxi
        exact hnotin (by
          rw [h, ← hxi]
          exact List.mem_map_of_mem _ hx)
      simp [hes]
    · rw [List.filter_cons_of_neg (by simp [h])]
      exact ih hnd i

/-- Under the unique index, the left join contributes exactly one row per
tender. -/
theorem leftJoinEmb_len (embs : List EmbRow)
    (hE : (embs.map (fun e => e.tender_id)).Nodup) (t : Tender) :
    (leftJoinEmb embs t).length = 1 := by
  unfold leftJoinEmb
  cases hf : embs.filter (fun e => e.tender_id == t.id) with
  | nil => rfl
  | cons e es =>
    have hle := filter_unique_len embs hE t.id
    rw [hf] at hle
    simp only [List.length_cons] at hle
    have : es = [] := List.eq_nil_of_length_eq_zero (by omega)
    subst this
    rfl

/-- Filtering the join rows of one tender by a predicate on the tender
component keeps all of them or none of them. -/
theorem filter_leftJoin (embs : List EmbRow) (t : Tender) (p : Tender → Bool) :
    (leftJoinEmb embs t).filter (fun x => p x.1) =
      if p t then leftJoinEmb embs t else [] := by
  unfold leftJoinEmb
  cases embs.filter (fun e => e.tender_id == t.id) with
  | nil => by_cases hp : p t <;> simp [hp]
  | cons e es =>
    by_cases hp : p t <;>
      simp [hp, List.filter_map, Function.comp_def]

/-- Under the unique index, filtering the joined rows by a predicate on
the tender matches filtering the tenders themselves, row for row. -/
theorem flatMap_filter_fst_length (embs : List EmbRow)
    (hE : (embs.map (fun e => e.tender_id)).Nodup) (p : Tender → Bool) :
    ∀ ts : List Tender,
      ((ts.flatMap (leftJoinEmb embs)).filter (fun x => p x.1)).length
        = (ts.filter p).length := by
  intro ts
  induction ts with
  | nil => rfl
  | cons t ts ih =>
    rw [List.flatMap_cons, List.filter_append, List.length_append, ih,
      filter_leftJoin]
    by_cases hp : p t = true
    · rw [if_pos hp, leftJoinEmb_len embs hE t, List.filter_cons_of_pos hp,
        List.length_cons]
      omega
    · rw [if_neg hp, List.filter_cons_of_neg (by simpa using hp)]
      simp

/-- Under the unique index on `tender_id`, the pre-pagination result set
of `search_tenders_ai` has exactly `search_tenders_ai_count` rows. -/
theorem length_search_ai_rows (env : PgEnv) (tenders : List Tender)
    (embs : List EmbRow) (a : AiSearchArgs)
    (hE : (embs.map (fun e => e.tender_id)).Nodup) :
    (search_tenders_ai_rows env tenders embs a).length =
      search_tenders_ai_count tenders a.search_query a.province_filter
        a.min_value a.max_value a.deadline_before a.deadline_after := by
  simp only [search_tenders_ai_rows, search_tenders_ai_count]
  rw [List.length_insertionSort, List.length_map]
  exact flatMap_filter_fst_length embs hE _ tenders

/-- C7: when the offset is at least the number of documents satisfying
the filters, the hybrid search returns an empty page (it is a total
function — no error), the reported total (`search_tenders_ai_count`,
which takes no pagination arguments) is still the full filtered count,
and `has_more` — modelled from the spec as `offset + limit < total` — is
false. -/
theorem C7_offset_beyond_total (env : PgEnv) (tenders : List Tender)
    (embs : List EmbRow) (a : AiSearchArgs)
    (hE : (embs.map (fun e => e.tender_id)).Nodup)
    (h : search_tenders_ai_count tenders a.search_query a.province_filter
      a.min_value a.max_value a.deadline_before a.deadline_after
      ≤ a.offset_count) :
    search_tenders_ai env tenders embs a = [] ∧
    hasMorePage a.offset_count a.limit_count
      (search_tenders_ai_count tenders a.search_query a.province_filter
        a.min_value a.max_value a.deadline_before a.deadline_after)
      = false := by
  have hl := length_search_ai_rows env tenders embs a hE
  constructor
  · unfold search_tenders_ai
    have hd : (search_tenders_ai_rows env tenders embs a).drop a.offset_count
        = [] := by
      rw [List.drop_eq_nil_iff]
      omega
    rw [hd, List.take_nil]
  · unfold hasMorePage
    simp only [decide_eq_false_iff_not]
    omega

/-- Witness for C7 at a concrete input: offset 1000 over a corpus of 2
matching documents. -/
theorem C7_offset_beyond_total_witness :
    (([] : List EmbRow).map (fun e => e.tender_id)).Nodup ∧
    search_tenders_ai_count [tOnt, tBC] aOff.search_query aOff.province_filter
      aOff.min_value aOff.max_value aOff.deadline_before aOff.deadline_after
      ≤ aOff.offset_count ∧
    (search_tenders_ai env0 [tOnt, tBC] [] aOff = [] ∧
     hasMorePage aOff.offset_count aOff.limit_count
       (search_tenders_ai_count [tOnt, tBC] aOff.search_query
         aOff.province_filter aOff.min_value aOff.max_value
         aOff.deadline_before aOff.deadline_after) = false) :=
  ⟨by decide, by decide,
   C7_offset_beyond_total env0 [tOnt, tBC] [] aOff (by decide) (by decide)⟩

/-- C8 as stated is false at this input: tenders 20 and 21 agree on all
six claimed fields (title, description, organization, category,
reference, naics — all null), yet the query "bridge" lexically matches
tender 20 and not tender 21, because the indexed representation also
includes `summary_raw`. -/
theorem C8_counterexample :
    (t8a.title = t8b.title ∧ t8a.description = t8b.description ∧
     t8a.organization = t8b.organization ∧ t8a.category = t8b.category ∧
     t8a.reference = t8b.reference ∧ t8a.naics = t8b.naics) ∧
    tsMatch (searchVector t8a) "bridge" = true ∧
    tsMatch (searchVector t8b) "bridge" = false := by
  decide

/-- C8 (amended): the lexical index representation is derived from
exactly the seven text fields title, summary_raw, organization,
description, category, reference and naics — two documents agreeing on
those seven fields have the same `search_vector`, so no other stored
field contributes to lexical matching or rank. -/
theorem C8_search_vector_fields_amended (x y : Tender)
    (h1 : x.title = y.title) (h2 : x.summary_raw = y.summary_raw)
    (h3 : x.organization = y.organization)
    (h4 : x.description = y.description) (h5 : x.category = y.category)
    (h6 : x.reference = y.reference) (h7 : x.naics = y.naics) :
    searchVector x = searchVector y := by
  unfold searchVector searchBody
  rw [h1, h2, h3, h4, h5, h6, h7]

/-- Witness for the amended C8: tenders 20 and 22 agree on the seven
indexed fields and get the same search vector. -/
theorem C8_search_vector_fields_amended_witness :
    (t8a.title = t8c.title ∧ t8a.summary_raw = t8c.summary_raw ∧
     t8a.organization = t8c.organization ∧ t8a.description = t8c.description ∧
     t8a.category = t8c.category ∧ t8a.reference = t8c.reference ∧
     t8a.naics = t8c.naics) ∧
    searchVector t8a = searchVector t8c :=
  ⟨⟨rfl, rfl, rfl, rfl, rfl, rfl, rfl⟩,
   C8_search_vector_fields_amended t8a t8c rfl rfl rfl rfl rfl rfl rfl⟩

/-- An upsert preserves distinctness of the stored tender ids (the unique
index invariant). -/
theorem upsert_preserves_nodup (tab : List EmbRow) (i : Nat) (e : List ℚ)
    (now : Int) (h : (tab.map (fun r => r.tender_id)).Nodup) :
    ((upsert_tender_embedding tab i e now).map
      (fun r => r.tender_id)).Nodup := by
  unfold upsert_tender_embedding
  by_cases hany : tab.any (fun r => r.tender_id == i) = true
  · rw [if_pos hany]
    have hmap : (tab.map (fun r =>
        if r.tender_id == i then { r with embedding := e, created_at := now }
        else r)).map (fun r => r.tender_id)
        = tab.map (fun r => r.tender_id) := by
      rw [List.map_map]
      apply List.map_congr_left
      intro r _
      by_cases hr : r.tender_id = i <;> simp [hr]
    rw [hmap]
    exact h
  · rw [if_neg hany, List.map_append]
    simp only [List.map_cons, List.map_nil]
    rw [List.nodup_append]
    refine ⟨h, List.nodup_singleton i, ?_⟩
    intro x hx hx2
    rw [List.mem_singleton] at hx2
    subst hx2
    obtain ⟨r, hr, hri⟩ := List.mem_map.mp hx
    exact hany (List.any_eq_true.mpr ⟨r, hr, by simp [hri]⟩)

/-- Any sequence of upserts starting from the empty store keeps the
tender ids distinct. -/
theorem applyUpserts_nodup (ops : List (Nat × List ℚ × Int)) :
    ((applyUpserts ops).map (fun r => r.tender_id)).Nodup := by
  unfold applyUpserts
  suffices h : ∀ (ops : List (Nat × List ℚ × Int)) (tab : List EmbRow),
      (tab.map (fun r => r.tender_id)).Nodup →
      ((ops.foldl (fun tab op =>
        upsert_tender_embedding tab op.1 op.2.1 op.2.2) tab).map
        (fun r => r.tender_id)).Nodup from
    h ops [] (by simp)
  intro ops
  induction ops with
  | nil => intro tab h; exact h
  | cons op ops ih =>
    intro tab h
    exact ih _ (upsert_preserves_nodup tab op.1 op.2.1 op.2.2 h)

/-- The updated first matching row of an upsert carries the new vector. -/
theorem findEmb_upsert_map : ∀ (tab : List EmbRow) (i : Nat) (e : List ℚ)
    (now : Int), tab.any (fun r => r.tender_id == i) = true →
    ((tab.map (fun r =>
      if r.tender_id == i then { r with embedding := e, created_at := now }
      else r)).find? (fun r => r.tender_id == i)).map (fun r => r.embedding)
      = some e := by
  intro tab
  induction tab with
  | nil => intro i e now h; cases h
  | cons r rs ih =>
    intro i e now h
    by_cases hr : (r.tender_id == i) = true
    · simp [List.find?, hr]
    · have hr2 : (r.tender_id == i) = false := by
        revert hr
        cases r.tender_id == i <;> simp
      simp only [List.map_cons, hr2, Bool.false_eq_true, if_false,
        List.find?, hr2]
      apply ih
      simp only [List.any_cons, hr2, Bool.false_or] at h
      exact h

/-- A repeated upsert for an already-stored tender id replaces the vector
in place: the store size is unchanged and the stored vector becomes the
new one. -/
theorem upsert_existing (tab : List EmbRow) (i : Nat) (e : List ℚ) (now : Int)
    (hany : tab.any (fun r => r.tender_id == i) = true) :
    (upsert_tender_embedding tab i e now).length = tab.length ∧
    findEmb (upsert_tender_embedding tab i e now) i = some e := by
  unfold upsert_tender_embedding
  rw [if_pos hany]
  exact ⟨List.length_map _ _, findEmb_upsert_map tab i e now hany⟩

/-- C9: after any sequence of `upsert_tender_embedding` operations
applied to the empty store, the embedding store holds at most one row per
tender id (the stored ids are pairwise distinct), and a repeated upsert
for an already-stored tender id replaces the existing vector — the store
size does not grow and the lookup returns the new vector. -/
theorem C9_upsert_at_most_one (ops : List (Nat × List ℚ × Int)) :
    ((applyUpserts ops).map (fun r => r.tender_id)).Nodup ∧
    (∀ (i : Nat) (e : List ℚ) (now : Int),
      (applyUpserts ops).any (fun r => r.tender_id == i) = true →
      (upsert_tender_embedding (applyUpserts ops) i e now).length
        = (applyUpserts ops).length ∧
      findEmb (upsert_tender_embedding (applyUpserts ops) i e now) i
        = some e) :=
  ⟨applyUpserts_nodup ops,
   fun i e now h => upsert_existing (applyUpserts ops) i e now h⟩

/-- Witness for C9: after two upserts for tender 1 the store has distinct
ids, and a further upsert for tender 1 keeps the size and stores the new
vector. -/
theorem C9_upsert_at_most_one_witness :
    ((applyUpserts ops9).map (fun r => r.tender_id)).Nodup ∧
    (applyUpserts ops9).any (fun r => r.tender_id == 1) = true ∧
    (upsert_tender_embedding (applyUpserts ops9) 1 [4] 2).length
      = (applyUpserts ops9).length ∧
    findEmb (upsert_tender_embedding (applyUpserts ops9) 1 [4] 2) 1
      = some [4] :=
  ⟨(C9_upsert_at_most_one ops9).1, by decide,
   ((C9_upsert_at_most_one ops9).2 1 [4] 2 (by decide)).1,
   ((C9_upsert_at_most_one ops9).2 1 [4] 2 (by decide)).2⟩

/-- C10: with identical filter arguments, `search_tenders_ai_count`
returns exactly the number of rows `search_tenders_ai` returns at offset
0 with an unbounded limit (a limit of the whole corpus size), given the
unique index on the embedding store — both sides apply the same
province, value, deadline and text-match predicate. -/
theorem C10_count_matches_results (env : PgEnv) (tenders : List Tender)
    (embs : List EmbRow) (q : String) (pf : Option String)
    (minv maxv : Option ℚ) (db da : Option Int) (qe : List ℚ)
    (hE : (embs.map (fun e => e.tender_id)).Nodup) :
    search_tenders_ai_count tenders q pf minv maxv db da =
      (search_tenders_ai env tenders embs
        { search_query := q, query_embedding := qe, province_filter := pf,
          min_value := minv, max_value := maxv, deadline_before := db,
          deadline_after := da, limit_count := tenders.length,
          offset_count := 0 }).length := by
  unfold search_tenders_ai
  have hl := length_search_ai_rows env tenders embs
    { search_query := q, query_embedding := qe, province_filter := pf,
      min_value := minv, max_value := maxv, deadline_before := db,
      deadline_after := da, limit_count := tenders.length,
      offset_count := 0 } hE
  dsimp only at hl ⊢
  rw [List.drop_zero, List.length_take, hl]
  have hle : search_tenders_ai_count tenders q pf minv maxv db da
      ≤ tenders.length := List.length_filter_le _ _
  omega

/-- Witness for C10 at a concrete input. -/
theorem C10_count_matches_results_witness :
    (([] : List EmbRow).map (fun e => e.tender_id)).Nodup ∧
    search_tenders_ai_count [tOnt, tBC] "" none none none none none =
      (search_tenders_ai env0 [tOnt, tBC] []
        { search_query := "", query_embedding := [], province_filter := none,
          min_value := none, max_value := none, deadline_before := none,
          deadline_after := none,
          limit_count := ([tOnt, tBC] : List Tender).length,
          offset_count := 0 }).length :=
  ⟨by decide,
   C10_count_matches_results env0 [tOnt, tBC] [] "" none none none none none
     [] (by decide)⟩
